import Mathlib

/-!
Verification of the Dixon-Coles rating and prediction engine of
`phase3_dixon_coles.py` (class `DixonColesModel`) against its
natural-language specification.

The Python code is shallowly embedded over the real numbers:
* a match record is the 6-tuple fetched from the database;
* the mutable model object (`self.xi`, `self.home_advantage`, `self.rho`,
  `self.team_attack`, `self.team_defense`, `self.teams`) is an explicit
  `DCState`, and `fit` maps a state to a new state;
* Python dictionaries become association lists with first-match lookup and
  in-place `upsert` (an existing key keeps its position, a new key is
  appended), mirroring CPython dict insertion-order semantics;
* operations that can raise in Python (`max` of an empty sequence,
  float division by zero) are modelled by `Option`: `none` means the
  call raised, `some` means it returned normally.
-/

open Classical

namespace DixonColes

/-- One row of the training data fetched by `get_training_data`:
`(fixture_id, home_team_name, away_team_name, home_goals, away_goals,
match_date)`.  Dates are modelled as integer day numbers, so the Python
`(current_date - match_date).days` is plain integer subtraction. -/
structure MatchRec where
  fixtureId : String
  homeTeam : String
  awayTeam : String
  homeGoals : ℕ
  awayGoals : ℕ
  matchDate : ℤ

/-- The mutable state of a `DixonColesModel` instance. -/
structure DCState where
  xi : ℝ
  homeAdvantage : ℝ
  rho : ℝ
  teamAttack : List (String × ℝ)
  teamDefense : List (String × ℝ)
  teams : List String

/-- `DixonColesModel.__init__`: parameters stored, empty rating dicts. -/
def initState (xi homeAdvantage rho : ℝ) : DCState :=
  ⟨xi, homeAdvantage, rho, [], [], []⟩

/-- A model constructed with the research defaults
`DixonColesModel(xi=0.0065, home_advantage=0.3, rho=-0.13)`. -/
def defaultState : DCState :=
  initState 0.0065 0.3 (-0.13)

/-- `time_decay_weight`: `exp(-xi * days_difference)`. -/
noncomputable def timeDecayWeight (xi : ℝ) (matchDate currentDate : ℤ) : ℝ :=
  Real.exp (-xi * ((currentDate - matchDate : ℤ) : ℝ))

/-- `tau_correction(home_goals, away_goals, lambda_h, mu_a)` of the model
with dependence parameter `rho`. -/
def tauCorrection (rho : ℝ) (homeGoals awayGoals : ℕ) (lamH muA : ℝ) : ℝ :=
  if homeGoals = 0 ∧ awayGoals = 0 then 1 - lamH * muA * rho
  else if homeGoals = 0 ∧ awayGoals = 1 then 1 + lamH * rho
  else if homeGoals = 1 ∧ awayGoals = 0 then 1 + muA * rho
  else if homeGoals = 1 ∧ awayGoals = 1 then 1 - rho
  else 1

/-- Append a team to an insertion-ordered key list if it is not already
present (one `team_stats[team] = {...}` initialisation / `set.add`). -/
def addTeam (acc : List String) (t : String) : List String :=
  if t ∈ acc then acc else acc ++ [t]

/-- Iteration order of the `team_stats` dictionary built by `fit`: every
match inserts its home team and then its away team. -/
def teamsOf (ms : List MatchRec) : List String :=
  ms.foldl (fun acc m => addTeam (addTeam acc m.homeTeam) m.awayTeam) []

/-- `team_stats[t]['goals_scored']` after the accumulation loop of `fit`:
time-weighted goals scored by team `t` over the match list. -/
noncomputable def goalsScoredW (xi : ℝ) (cur : ℤ) (ms : List MatchRec) (t : String) : ℝ :=
  (ms.map (fun m =>
    (if m.homeTeam = t then (m.homeGoals : ℝ) * timeDecayWeight xi m.matchDate cur else 0) +
    (if m.awayTeam = t then (m.awayGoals : ℝ) * timeDecayWeight xi m.matchDate cur else 0))).sum

/-- `team_stats[t]['goals_conceded']`: time-weighted goals conceded. -/
noncomputable def goalsConcededW (xi : ℝ) (cur : ℤ) (ms : List MatchRec) (t : String) : ℝ :=
  (ms.map (fun m =>
    (if m.homeTeam = t then (m.awayGoals : ℝ) * timeDecayWeight xi m.matchDate cur else 0) +
    (if m.awayTeam = t then (m.homeGoals : ℝ) * timeDecayWeight xi m.matchDate cur else 0))).sum

/-- `team_stats[t]['weighted_matches']`: sum of the decay weights of the
matches team `t` took part in. -/
noncomputable def weightedMatches (xi : ℝ) (cur : ℤ) (ms : List MatchRec) (t : String) : ℝ :=
  (ms.map (fun m =>
    (if m.homeTeam = t then timeDecayWeight xi m.matchDate cur else 0) +
    (if m.awayTeam = t then timeDecayWeight xi m.matchDate cur else 0))).sum

/-- `max(match[5] for match in matches)` (the default `current_date`);
only used on non-empty lists, where the seed equals the head. -/
def maxDate (ms : List MatchRec) : ℤ :=
  ms.foldl (fun a m => max a m.matchDate)
    (match ms with | [] => 0 | m :: _ => m.matchDate)

/-- Python dict assignment `d[k] = v` on an association list: overwrite in
place if the key exists, otherwise append. -/
def upsert (k : String) (v : ℝ) : List (String × ℝ) → List (String × ℝ)
  | [] => [(k, v)]
  | p :: rest => if p.1 = k then (k, v) :: rest else p :: upsert k v rest

/-- `league_avg_goals` computed by `fit` (`1.5` fallback when the weighted
match total is zero). -/
noncomputable def leagueAvgOf (xi : ℝ) (cur : ℤ) (ms : List MatchRec) : ℝ :=
  let ts := teamsOf ms
  let totG := (ts.map (goalsScoredW xi cur ms)).sum
  let totW := (ts.map (weightedMatches xi cur ms)).sum
  if totW > 0 then totG / totW else 1.5

/-- The attack-parameter loop of `fit`: for each team with positive
weighted matches, store `(avg_scored / league_avg)` into `team_attack`. -/
noncomputable def rawAttack (xi : ℝ) (cur : ℤ) (ms : List MatchRec) (lg : ℝ)
    (prev : List (String × ℝ)) : List (String × ℝ) :=
  (teamsOf ms).foldl (fun acc t =>
    if 0 < weightedMatches xi cur ms t then
      upsert t (goalsScoredW xi cur ms t / weightedMatches xi cur ms t / lg) acc
    else acc) prev

/-- The defense-parameter loop of `fit`. -/
noncomputable def rawDefense (xi : ℝ) (cur : ℤ) (ms : List MatchRec) (lg : ℝ)
    (prev : List (String × ℝ)) : List (String × ℝ) :=
  (teamsOf ms).foldl (fun acc t =>
    if 0 < weightedMatches xi cur ms t then
      upsert t (goalsConcededW xi cur ms t / weightedMatches xi cur ms t / lg) acc
    else acc) prev

/-- `DixonColesModel.fit(matches, current_date)`.

`none` models a raised exception: `max()` on an empty sequence when no
`current_date` is supplied, `ZeroDivisionError` when `league_avg_goals`
is zero and some team is rated, or `ZeroDivisionError` in the
normalisation loop when the mean attack value is zero.  Otherwise the
state is updated exactly as the method mutates `self`: ratings for the
teams of `matches` are written over the existing dictionaries and then
every stored attack and defense entry is divided by the mean of all
stored attack values.  (The Python defense normalisation iterates the
keys of `team_attack`; since `fit` always inserts attack and defense
entries in pairs, the two dictionaries share their key set and this is
the same as mapping over `team_defense`.) -/
noncomputable def fitState (s : DCState) (ms : List MatchRec) (curOpt : Option ℤ) :
    Option DCState :=
  if ms = [] ∧ curOpt = none then none
  else
    let cur := curOpt.getD (maxDate ms)
    let lg := leagueAvgOf s.xi cur ms
    if lg = 0 ∧ ∃ t ∈ teamsOf ms, 0 < weightedMatches s.xi cur ms t then none
    else
      let atkNew := rawAttack s.xi cur ms lg s.teamAttack
      let dfnNew := rawDefense s.xi cur ms lg s.teamDefense
      let avgAtk := if atkNew = [] then 1 else (atkNew.map Prod.snd).sum / atkNew.length
      if avgAtk = 0 then none
      else some { s with
        teamAttack := atkNew.map (fun p => (p.1, p.2 / avgAtk)),
        teamDefense := dfnNew.map (fun p => (p.1, p.2 / avgAtk)),
        teams := (teamsOf ms).foldl addTeam s.teams }

/-- `d.get(team, 1.0)`: dictionary lookup with the neutral default. -/
def lookupD (l : List (String × ℝ)) (t : String) : ℝ :=
  (l.lookup t).getD 1

/-- `lambda_h = home_attack * (1 + home_advantage) * away_defense`. -/
def lamOf (s : DCState) (home away : String) : ℝ :=
  lookupD s.teamAttack home * (1 + s.homeAdvantage) * lookupD s.teamDefense away

/-- `mu_a = away_attack * home_defense`. -/
def muOf (s : DCState) (home away : String) : ℝ :=
  lookupD s.teamAttack away * lookupD s.teamDefense home

/-- The Poisson factor `exp(-lam) * lam**k / factorial(k)`. -/
noncomputable def poissonP (lam : ℝ) (k : ℕ) : ℝ :=
  Real.exp (-lam) * lam ^ k / (Nat.factorial k : ℝ)

/-- `score_prob = poisson_prob * tau` for scoreline `(i, j)`. -/
noncomputable def scoreGridProb (rho lam mu : ℝ) (i j : ℕ) : ℝ :=
  poissonP lam i * poissonP mu j * tauCorrection rho i j lam mu

/-- The `home_win_prob` accumulator before normalisation:
scorelines with `i > j`, `i, j ∈ [0, 6]`. -/
noncomputable def bucketH (rho lam mu : ℝ) : ℝ :=
  ∑ i ∈ Finset.range 7, ∑ j ∈ Finset.range 7,
    if j < i then scoreGridProb rho lam mu i j else 0

/-- The `draw_prob` accumulator before normalisation (`i = j`). -/
noncomputable def bucketD (rho lam mu : ℝ) : ℝ :=
  ∑ i ∈ Finset.range 7, ∑ j ∈ Finset.range 7,
    if j = i then scoreGridProb rho lam mu i j else 0

/-- The `away_win_prob` accumulator before normalisation (`i < j`). -/
noncomputable def bucketA (rho lam mu : ℝ) : ℝ :=
  ∑ i ∈ Finset.range 7, ∑ j ∈ Finset.range 7,
    if i < j then scoreGridProb rho lam mu i j else 0

/-- The dictionary returned by `DixonColesModel.predict`. -/
structure Prediction where
  homeWinProb : ℝ
  drawProb : ℝ
  awayWinProb : ℝ
  expectedHomeGoals : ℝ
  expectedAwayGoals : ℝ
  homeAttack : ℝ
  homeDefense : ℝ
  awayAttack : ℝ
  awayDefense : ℝ
  rho : ℝ
  xi : ℝ

/-- `DixonColesModel.predict(home_team, away_team)`.  The method body is
total: missing teams default to ratings `1.0`, and the bucket sums are
divided by their total only when that total is positive (otherwise the
raw accumulators are returned unchanged). -/
noncomputable def predict (s : DCState) (home away : String) : Prediction :=
  let lam := lamOf s home away
  let mu := muOf s home away
  let h := bucketH s.rho lam mu
  let d := bucketD s.rho lam mu
  let a := bucketA s.rho lam mu
  let tot := h + d + a
  if 0 < tot then
    ⟨h / tot, d / tot, a / tot, lam, mu,
      lookupD s.teamAttack home, lookupD s.teamDefense home,
      lookupD s.teamAttack away, lookupD s.teamDefense away, s.rho, s.xi⟩
  else
    ⟨h, d, a, lam, mu,
      lookupD s.teamAttack home, lookupD s.teamDefense home,
      lookupD s.teamAttack away, lookupD s.teamDefense away, s.rho, s.xi⟩

/-- `DixonColesModel.calculate_brier_score(predicted, actual_result)`:
`none` models the `ValueError` raised for an invalid result code. -/
noncomputable def calculateBrierScore (p : ℝ × ℝ × ℝ) (actualResult : String) : Option ℝ :=
  (if actualResult = "H" then some ((1 : ℝ), (0 : ℝ), (0 : ℝ))
   else if actualResult = "D" then some ((0 : ℝ), (1 : ℝ), (0 : ℝ))
   else if actualResult = "A" then some ((0 : ℝ), (0 : ℝ), (1 : ℝ))
   else none).map fun a =>
    ((p.1 - a.1) ^ 2 + (p.2.1 - a.2.1) ^ 2 + (p.2.2 - a.2.2) ^ 2) / 3

/-- `get_training_data`: the fetched rows are rejected (the function
prints an error and returns `None`, so training is aborted) when fewer
than 100 matches are available. -/
def getTrainingData (fetched : List MatchRec) : Option (List MatchRec) :=
  if fetched.length < 100 then none else some fetched

/-- Replace the `home_advantage` attribute of a model, keeping the
ratings and all other parameters fixed. -/
def setHA (s : DCState) (ha : ℝ) : DCState :=
  { s with homeAdvantage := ha }

/-- One-hot encoding of a result, as the specification words it:
`actual ∈ {(1,0,0),(0,1,0),(0,0,1)}` for `H`/`D`/`A`. -/
def oneHot (r : String) : ℝ × ℝ × ℝ :=
  if r = "H" then (1, 0, 0) else if r = "D" then (0, 1, 0) else (0, 0, 1)

section ProjectionLemmas

lemma predict_homeAttack (s : DCState) (home away : String) :
    (predict s home away).homeAttack = lookupD s.teamAttack home := by
  simp only [predict]; split <;> rfl

lemma predict_homeDefense (s : DCState) (home away : String) :
    (predict s home away).homeDefense = lookupD s.teamDefense home := by
  simp only [predict]; split <;> rfl

lemma predict_awayAttack (s : DCState) (home away : String) :
    (predict s home away).awayAttack = lookupD s.teamAttack away := by
  simp only [predict]; split <;> rfl

lemma predict_awayDefense (s : DCState) (home away : String) :
    (predict s home away).awayDefense = lookupD s.teamDefense away := by
  simp only [predict]; split <;> rfl

lemma predict_expectedHomeGoals (s : DCState) (home away : String) :
    (predict s home away).expectedHomeGoals = lamOf s home away := by
  simp only [predict]; split <;> rfl

lemma predict_expectedAwayGoals (s : DCState) (home away : String) :
    (predict s home away).expectedAwayGoals = muOf s home away := by
  simp only [predict]; split <;> rfl

end ProjectionLemmas

/-- **C3.**  `tau_correction` returns exactly `1 - lam*mu*rho` at `(0,0)`,
`1 + lam*rho` at `(0,1)`, `1 + mu*rho` at `(1,0)`, `1 - rho` at `(1,1)`,
and `1` at every other scoreline; with `rho = 0` it is `1` everywhere. -/
theorem tau_correction_spec (i j : ℕ) (lam mu rho : ℝ) :
    tauCorrection rho 0 0 lam mu = 1 - lam * mu * rho ∧
    tauCorrection rho 0 1 lam mu = 1 + lam * rho ∧
    tauCorrection rho 1 0 lam mu = 1 + mu * rho ∧
    tauCorrection rho 1 1 lam mu = 1 - rho ∧
    (¬ ((i = 0 ∧ j = 0) ∨ (i = 0 ∧ j = 1) ∨ (i = 1 ∧ j = 0) ∨ (i = 1 ∧ j = 1)) →
      tauCorrection rho i j lam mu = 1) ∧
    tauCorrection 0 i j lam mu = 1 := by
  refine ⟨by simp [tauCorrection], by simp [tauCorrection], by simp [tauCorrection],
    by simp [tauCorrection], ?_, ?_⟩
  · intro h
    simp only [tauCorrection]
    rw [if_neg, if_neg, if_neg, if_neg] <;> tauto
  · simp only [tauCorrection]
    split_ifs <;> ring

/-- Witness for `tau_correction_spec` at the concrete scoreline `(2, 3)`. -/
theorem tau_correction_spec_witness :
    tauCorrection (-0.13) 2 3 (4 : ℝ) 5 = 1 :=
  (tau_correction_spec 2 3 4 5 (-0.13)).2.2.2.2.1 (by simp)

/-- **C9.**  For every predicted triple and every valid result code, the
Brier score is `(1/3)` times the sum over the three classes of the squared
difference between the prediction and the one-hot encoding of the result;
it is `0` for the perfect call `(1,0,0)` against `H` and `2/9` for the
uniform call against any outcome. -/
theorem brier_score_spec (p1 p2 p3 : ℝ) (r : String) :
    (r = "H" ∨ r = "D" ∨ r = "A" →
      calculateBrierScore (p1, p2, p3) r =
        some ((1 / 3) * ((p1 - (oneHot r).1) ^ 2 + (p2 - (oneHot r).2.1) ^ 2 +
          (p3 - (oneHot r).2.2) ^ 2))) ∧
    calculateBrierScore (1, 0, 0) "H" = some 0 ∧
    (r = "H" ∨ r = "D" ∨ r = "A" →
      calculateBrierScore (1 / 3, 1 / 3, 1 / 3) r = some (2 / 9)) := by
  have hDH : ¬ (("D" : String) = "H") := by decide
  have hAH : ¬ (("A" : String) = "H") := by decide
  have hAD : ¬ (("A" : String) = "D") := by decide
  refine ⟨?_, by norm_num [calculateBrierScore], ?_⟩ <;>
    · rintro (rfl | rfl | rfl) <;>
        norm_num [calculateBrierScore, oneHot, hDH, hAH, hAD] <;> ring

/-- Witness for `brier_score_spec`: the uniform call against `A` scores
`2/9`, and the formula conjunct evaluated against `D`. -/
theorem brier_score_spec_witness :
    calculateBrierScore (1 / 3, 1 / 3, 1 / 3) "A" = some (2 / 9) ∧
    calculateBrierScore ((0.5 : ℝ), 0.3, 0.2) "D" =
      some ((1 / 3) * (((0.5 : ℝ) - (oneHot "D").1) ^ 2 + ((0.3 : ℝ) - (oneHot "D").2.1) ^ 2 +
        ((0.2 : ℝ) - (oneHot "D").2.2) ^ 2)) :=
  ⟨(brier_score_spec (1 / 3) (1 / 3) (1 / 3) "A").2.2 (Or.inr (Or.inr rfl)),
   (brier_score_spec 0.5 0.3 0.2 "D").1 (Or.inr (Or.inl rfl))⟩

/-- **C6.**  A team with no entry in the fitted rating dictionaries is
given attack and defense `1.0` by `predict`, whether it appears as the
home or the away side; `predict` is a total function, so no input can
make it fail. -/
theorem predict_unseen_team_defaults (s : DCState) (home away : String) :
    (s.teamAttack.lookup home = none → s.teamDefense.lookup home = none →
      (predict s home away).homeAttack = 1 ∧ (predict s home away).homeDefense = 1 ∧
      (predict s home away).expectedHomeGoals =
        1 * (1 + s.homeAdvantage) * lookupD s.teamDefense away ∧
      (predict s home away).expectedAwayGoals = lookupD s.teamAttack away * 1) ∧
    (s.teamAttack.lookup away = none → s.teamDefense.lookup away = none →
      (predict s home away).awayAttack = 1 ∧ (predict s home away).awayDefense = 1) := by
  constructor
  · intro h1 h2
    refine ⟨?_, ?_, ?_, ?_⟩
    · rw [predict_homeAttack]; simp [lookupD, h1]
    · rw [predict_homeDefense]; simp [lookupD, h2]
    · rw [predict_expectedHomeGoals]; simp [lamOf, lookupD, h1]
    · rw [predict_expectedAwayGoals]; simp [muOf, lookupD, h2]
  · intro h1 h2
    constructor
    · rw [predict_awayAttack]; simp [lookupD, h1]
    · rw [predict_awayDefense]; simp [lookupD, h2]

/-- Witness for `predict_unseen_team_defaults`: a freshly constructed
model has rated nobody, so both teams fall back to `1.0`. -/
theorem predict_unseen_team_defaults_witness :
    (predict defaultState "Arsenal" "Chelsea").homeAttack = 1 ∧
    (predict defaultState "Arsenal" "Chelsea").awayDefense = 1 :=
  ⟨((predict_unseen_team_defaults defaultState "Arsenal" "Chelsea").1 rfl rfl).1,
   ((predict_unseen_team_defaults defaultState "Arsenal" "Chelsea").2 rfl rfl).2⟩

section GridLemmas

/-- Truncated exponential series `sum of x^k / k!` for `k ∈ [0, 6]`: the
per-side Poisson mass kept by the `max_goals = 6` scoreline grid. -/
noncomputable def truncExpSum (x : ℝ) : ℝ :=
  ∑ k ∈ Finset.range 7, x ^ k / (Nat.factorial k : ℝ)

/-- The three bucket accumulators always sum to the plain truncated
bivariate Poisson mass: the four tau corrections cancel exactly. -/
lemma bucket_total_eq (rho lam mu : ℝ) :
    bucketH rho lam mu + bucketD rho lam mu + bucketA rho lam mu =
      Real.exp (-lam) * Real.exp (-mu) * (truncExpSum lam * truncExpSum mu) := by
  simp only [bucketH, bucketD, bucketA, truncExpSum, scoreGridProb, poissonP,
    tauCorrection, Finset.sum_range_succ, Finset.sum_range_zero]
  norm_num
  ring

lemma truncExpSum_pos {x : ℝ} (hx : 0 ≤ x) : 0 < truncExpSum x := by
  refine Finset.sum_pos' (fun k _ => by positivity) ⟨0, by simp, by norm_num⟩

lemma poissonP_nonneg {lam : ℝ} (hlam : 0 ≤ lam) (k : ℕ) : 0 ≤ poissonP lam k := by
  unfold poissonP
  have h1 := Real.exp_pos (-lam)
  have h2 := pow_nonneg hlam k
  positivity

lemma tauCorrection_nonneg {rho lam mu : ℝ} (i j : ℕ)
    (h00 : 0 ≤ 1 - lam * mu * rho) (h01 : 0 ≤ 1 + lam * rho)
    (h10 : 0 ≤ 1 + mu * rho) (h11 : 0 ≤ 1 - rho) :
    0 ≤ tauCorrection rho i j lam mu := by
  unfold tauCorrection
  split_ifs <;> [linarith; linarith; linarith; linarith; norm_num]

lemma scoreGridProb_nonneg {rho lam mu : ℝ} (i j : ℕ)
    (hlam : 0 ≤ lam) (hmu : 0 ≤ mu)
    (htau : 0 ≤ tauCorrection rho i j lam mu) :
    0 ≤ scoreGridProb rho lam mu i j :=
  mul_nonneg (mul_nonneg (poissonP_nonneg hlam i) (poissonP_nonneg hmu j)) htau

lemma buckets_nonneg {rho lam mu : ℝ}
    (hlam : 0 ≤ lam) (hmu : 0 ≤ mu)
    (h00 : 0 ≤ 1 - lam * mu * rho) (h01 : 0 ≤ 1 + lam * rho)
    (h10 : 0 ≤ 1 + mu * rho) (h11 : 0 ≤ 1 - rho) :
    0 ≤ bucketH rho lam mu ∧ 0 ≤ bucketD rho lam mu ∧ 0 ≤ bucketA rho lam mu := by
  refine ⟨?_, ?_, ?_⟩ <;>
    · refine Finset.sum_nonneg fun i _ => Finset.sum_nonneg fun j _ => ?_
      split
      · exact scoreGridProb_nonneg i j hlam hmu (tauCorrection_nonneg i j h00 h01 h10 h11)
      · exact le_refl 0

end GridLemmas

/-- Helper: the bucket total is strictly positive for non-negative
expected goals, and `predict` always takes the normalization branch. -/
lemma predict_normalized (s : DCState) (home away : String)
    (hlam : 0 ≤ lamOf s home away) (hmu : 0 ≤ muOf s home away) :
    0 < bucketH s.rho (lamOf s home away) (muOf s home away) +
        bucketD s.rho (lamOf s home away) (muOf s home away) +
        bucketA s.rho (lamOf s home away) (muOf s home away) ∧
    (predict s home away).homeWinProb =
      bucketH s.rho (lamOf s home away) (muOf s home away) /
        (bucketH s.rho (lamOf s home away) (muOf s home away) +
         bucketD s.rho (lamOf s home away) (muOf s home away) +
         bucketA s.rho (lamOf s home away) (muOf s home away)) ∧
    (predict s home away).drawProb =
      bucketD s.rho (lamOf s home away) (muOf s home away) /
        (bucketH s.rho (lamOf s home away) (muOf s home away) +
         bucketD s.rho (lamOf s home away) (muOf s home away) +
         bucketA s.rho (lamOf s home away) (muOf s home away)) ∧
    (predict s home away).awayWinProb =
      bucketA s.rho (lamOf s home away) (muOf s home away) /
        (bucketH s.rho (lamOf s home away) (muOf s home away) +
         bucketD s.rho (lamOf s home away) (muOf s home away) +
         bucketA s.rho (lamOf s home away) (muOf s home away)) := by
  have htot : 0 < bucketH s.rho (lamOf s home away) (muOf s home away) +
      bucketD s.rho (lamOf s home away) (muOf s home away) +
      bucketA s.rho (lamOf s home away) (muOf s home away) := by
    rw [bucket_total_eq]
    have h1 := Real.exp_pos (-(lamOf s home away))
    have h2 := Real.exp_pos (-(muOf s home away))
    have h3 := truncExpSum_pos hlam
    have h4 := truncExpSum_pos hmu
    positivity
  refine ⟨htot, ?_, ?_, ?_⟩ <;> · simp only [predict]; rw [if_pos htot]

/-- **C4.**  For every model whose expected goals are non-negative (true
of every fitted model: ratings are quotients of non-negative weighted
sums), the three outcome buckets sum to a strictly positive total before
renormalization — the tau corrections cancel in the total, which equals
the truncated bivariate Poisson mass.  The degenerate all-buckets-zero
case is therefore unreachable, `predict` always takes the normalization
branch (never returning un-normalized probabilities, and real-number
semantics admit no NaN), and since the method body raises nothing,
"raises if and only if the buckets sum to zero" holds with both sides
false. -/
theorem predict_degenerate_unreachable (s : DCState) (home away : String)
    (hlam : 0 ≤ lamOf s home away) (hmu : 0 ≤ muOf s home away) :
    0 < bucketH s.rho (lamOf s home away) (muOf s home away) +
        bucketD s.rho (lamOf s home away) (muOf s home away) +
        bucketA s.rho (lamOf s home away) (muOf s home away) ∧
    (predict s home away).homeWinProb =
      bucketH s.rho (lamOf s home away) (muOf s home away) /
        (bucketH s.rho (lamOf s home away) (muOf s home away) +
         bucketD s.rho (lamOf s home away) (muOf s home away) +
         bucketA s.rho (lamOf s home away) (muOf s home away)) ∧
    (predict s home away).drawProb =
      bucketD s.rho (lamOf s home away) (muOf s home away) /
        (bucketH s.rho (lamOf s home away) (muOf s home away) +
         bucketD s.rho (lamOf s home away) (muOf s home away) +
         bucketA s.rho (lamOf s home away) (muOf s home away)) ∧
    (predict s home away).awayWinProb =
      bucketA s.rho (lamOf s home away) (muOf s home away) /
        (bucketH s.rho (lamOf s home away) (muOf s home away) +
         bucketD s.rho (lamOf s home away) (muOf s home away) +
         bucketA s.rho (lamOf s home away) (muOf s home away)) :=
  predict_normalized s home away hlam hmu

/-- Witness for `predict_degenerate_unreachable`: the default model with
two unrated teams (`lambda = 1.3`, `mu = 1`). -/
theorem predict_degenerate_unreachable_witness :
    0 < bucketH defaultState.rho (lamOf defaultState "X" "Y") (muOf defaultState "X" "Y") +
        bucketD defaultState.rho (lamOf defaultState "X" "Y") (muOf defaultState "X" "Y") +
        bucketA defaultState.rho (lamOf defaultState "X" "Y") (muOf defaultState "X" "Y") :=
  (predict_degenerate_unreachable defaultState "X" "Y"
    (by norm_num [lamOf, lookupD, defaultState, initState])
    (by norm_num [muOf, lookupD, defaultState, initState])).1

/-- **C1 (amended).**  For every model with non-negative expected goals,
the three returned probabilities sum to exactly `1` (well within the
1e-9 tolerance); they are moreover each in `[0,1]` provided the four tau
factors `1 - lam*mu*rho`, `1 + lam*rho`, `1 + mu*rho`, `1 - rho` are
non-negative at the predicted expected goals — which holds in particular
for `rho = 0`, or for the default `rho = -0.13` with moderate expected
goals.  Without that proviso a bucket can be negative and the claim
fails (see the counterexample). -/
theorem predict_probabilities_spec (s : DCState) (home away : String)
    (hlam : 0 ≤ lamOf s home away) (hmu : 0 ≤ muOf s home away)
    (h00 : 0 ≤ 1 - lamOf s home away * muOf s home away * s.rho)
    (h01 : 0 ≤ 1 + lamOf s home away * s.rho)
    (h10 : 0 ≤ 1 + muOf s home away * s.rho)
    (h11 : 0 ≤ 1 - s.rho) :
    (0 ≤ (predict s home away).homeWinProb ∧ (predict s home away).homeWinProb ≤ 1) ∧
    (0 ≤ (predict s home away).drawProb ∧ (predict s home away).drawProb ≤ 1) ∧
    (0 ≤ (predict s home away).awayWinProb ∧ (predict s home away).awayWinProb ≤ 1) ∧
    (predict s home away).homeWinProb + (predict s home away).drawProb +
      (predict s home away).awayWinProb = 1 := by
  obtain ⟨htot, eH, eD, eA⟩ := predict_normalized s home away hlam hmu
  obtain ⟨hH, hD, hA⟩ := buckets_nonneg hlam hmu h00 h01 h10 h11
  set lam := lamOf s home away
  set mu := muOf s home away
  set bh := bucketH s.rho lam mu
  set bd := bucketD s.rho lam mu
  set ba := bucketA s.rho lam mu
  rw [eH, eD, eA]
  have htot' : bh + bd + ba ≠ 0 := ne_of_gt htot
  refine ⟨⟨div_nonneg hH htot.le, ?_⟩, ⟨div_nonneg hD htot.le, ?_⟩,
    ⟨div_nonneg hA htot.le, ?_⟩, ?_⟩
  · rw [div_le_one htot]; linarith
  · rw [div_le_one htot]; linarith
  · rw [div_le_one htot]; linarith
  · field_simp

/-- Witness for `predict_probabilities_spec`: the default model with two
unrated teams; all tau factors are positive there. -/
theorem predict_probabilities_spec_witness :
    (predict defaultState "X" "Y").homeWinProb + (predict defaultState "X" "Y").drawProb +
      (predict defaultState "X" "Y").awayWinProb = 1 :=
  (predict_probabilities_spec defaultState "X" "Y"
    (by norm_num [lamOf, lookupD, defaultState, initState])
    (by norm_num [muOf, lookupD, defaultState, initState])
    (by norm_num [lamOf, muOf, lookupD, defaultState, initState])
    (by norm_num [lamOf, lookupD, defaultState, initState])
    (by norm_num [muOf, lookupD, defaultState, initState])
    (by norm_num [defaultState, initState])).2.2.2

section ConcreteFits

section StrFacts

lemma neAB : ¬ ("A" : String) = "B" := by decide
lemma neAC : ¬ ("A" : String) = "C" := by decide
lemma neAD : ¬ ("A" : String) = "D" := by decide
lemma neAE : ¬ ("A" : String) = "E" := by decide
lemma neAF : ¬ ("A" : String) = "F" := by decide
lemma neBA : ¬ ("B" : String) = "A" := by decide
lemma neBC : ¬ ("B" : String) = "C" := by decide
lemma neBD : ¬ ("B" : String) = "D" := by decide
lemma neBE : ¬ ("B" : String) = "E" := by decide
lemma neBF : ¬ ("B" : String) = "F" := by decide
lemma neCA : ¬ ("C" : String) = "A" := by decide
lemma neCB : ¬ ("C" : String) = "B" := by decide
lemma neCD : ¬ ("C" : String) = "D" := by decide
lemma neCE : ¬ ("C" : String) = "E" := by decide
lemma neCF : ¬ ("C" : String) = "F" := by decide
lemma neDA : ¬ ("D" : String) = "A" := by decide
lemma neDB : ¬ ("D" : String) = "B" := by decide
lemma neDC : ¬ ("D" : String) = "C" := by decide
lemma neDE : ¬ ("D" : String) = "E" := by decide
lemma neDF : ¬ ("D" : String) = "F" := by decide
lemma neEA : ¬ ("E" : String) = "A" := by decide
lemma neEB : ¬ ("E" : String) = "B" := by decide
lemma neEC : ¬ ("E" : String) = "C" := by decide
lemma neED : ¬ ("E" : String) = "D" := by decide
lemma neEF : ¬ ("E" : String) = "F" := by decide
lemma neFA : ¬ ("F" : String) = "A" := by decide
lemma neFB : ¬ ("F" : String) = "B" := by decide
lemma neFC : ¬ ("F" : String) = "C" := by decide
lemma neFD : ¬ ("F" : String) = "D" := by decide
lemma neFE : ¬ ("F" : String) = "E" := by decide

lemma beqAB : (("A" : String) == "B") = false := by decide
lemma beqAC : (("A" : String) == "C") = false := by decide
lemma beqAD : (("A" : String) == "D") = false := by decide
lemma beqAE : (("A" : String) == "E") = false := by decide
lemma beqAF : (("A" : String) == "F") = false := by decide
lemma beqBA : (("B" : String) == "A") = false := by decide
lemma beqBC : (("B" : String) == "C") = false := by decide
lemma beqBD : (("B" : String) == "D") = false := by decide
lemma beqBE : (("B" : String) == "E") = false := by decide
lemma beqBF : (("B" : String) == "F") = false := by decide
lemma beqCA : (("C" : String) == "A") = false := by decide
lemma beqCB : (("C" : String) == "B") = false := by decide
lemma beqCD : (("C" : String) == "D") = false := by decide
lemma beqCE : (("C" : String) == "E") = false := by decide
lemma beqCF : (("C" : String) == "F") = false := by decide
lemma beqDA : (("D" : String) == "A") = false := by decide
lemma beqDB : (("D" : String) == "B") = false := by decide
lemma beqDC : (("D" : String) == "C") = false := by decide
lemma beqDE : (("D" : String) == "E") = false := by decide
lemma beqDF : (("D" : String) == "F") = false := by decide
lemma beqEA : (("E" : String) == "A") = false := by decide
lemma beqEB : (("E" : String) == "B") = false := by decide
lemma beqEC : (("E" : String) == "C") = false := by decide
lemma beqED : (("E" : String) == "D") = false := by decide
lemma beqEF : (("E" : String) == "F") = false := by decide
lemma beqFA : (("F" : String) == "A") = false := by decide
lemma beqFB : (("F" : String) == "B") = false := by decide
lemma beqFC : (("F" : String) == "C") = false := by decide
lemma beqFD : (("F" : String) == "D") = false := by decide
lemma beqFE : (("F" : String) == "E") = false := by decide

end StrFacts

/-- A match on the reference date has decay weight `exp 0 = 1`. -/
lemma weight_same_date (xi : ℝ) (d : ℤ) : timeDecayWeight xi d d = 1 := by
  simp [timeDecayWeight]

/-- An `ite` on a manifestly non-empty rating list collapses to the
else-branch (needed because classical decidability blocks evaluation). -/
lemma ite_cons_nil {β : Sort _} (p : String × ℝ) (l : List (String × ℝ)) (a b : β) :
    (if p :: l = [] then a else b) = b :=
  if_neg (by simp)

/-- Demo match: E beats F 2-0. -/
def mEF : MatchRec := ⟨"f1", "E", "F", 2, 0, 0⟩

/-- Demo match: A beats B 2-0. -/
def mAB : MatchRec := ⟨"f2", "A", "B", 2, 0, 0⟩

/-- Demo match: A loses to C 0-1 at home. -/
def mAC : MatchRec := ⟨"f3", "A", "C", 0, 1, 0⟩

/-- Demo match with a lopsided score: A beats B 20-1. -/
def mBig : MatchRec := ⟨"f4", "A", "B", 20, 1, 0⟩

/-- Demo match: C draws D 1-1. -/
def mCD : MatchRec := ⟨"f5", "C", "D", 1, 1, 0⟩

/-- The state produced by fitting the fresh default model on `[mEF]`. -/
def sEF : DCState :=
  ⟨0.0065, 0.3, -0.13, [("E", 2), ("F", 0)], [("E", 0), ("F", 2)], ["E", "F"]⟩

lemma teams_mEF : teamsOf [mEF] = ["E", "F"] := by decide

lemma stats_mEF (xi : ℝ) :
    weightedMatches xi 0 [mEF] "E" = 1 ∧ weightedMatches xi 0 [mEF] "F" = 1 ∧
    goalsScoredW xi 0 [mEF] "E" = 2 ∧ goalsScoredW xi 0 [mEF] "F" = 0 ∧
    goalsConcededW xi 0 [mEF] "E" = 0 ∧ goalsConcededW xi 0 [mEF] "F" = 2 := by
  norm_num [weightedMatches, goalsScoredW, goalsConcededW, mEF, weight_same_date, neAB, neAC, neAD, neAE, neAF, neBA, neBC, neBD, neBE, neBF, neCA, neCB, neCD, neCE, neCF, neDA, neDB, neDC, neDE, neDF, neEA, neEB, neEC, neED, neEF, neFA, neFB, neFC, neFD, neFE]

lemma league_mEF (xi : ℝ) : leagueAvgOf xi 0 [mEF] = 1 := by
  norm_num [leagueAvgOf, teams_mEF, stats_mEF]

lemma rawAttack_mEF (xi : ℝ) : rawAttack xi 0 [mEF] 1 [] = [("E", 2), ("F", 0)] := by
  norm_num [rawAttack, teams_mEF, stats_mEF, upsert, neAB, neAC, neAD, neAE, neAF, neBA, neBC, neBD, neBE, neBF, neCA, neCB, neCD, neCE, neCF, neDA, neDB, neDC, neDE, neDF, neEA, neEB, neEC, neED, neEF, neFA, neFB, neFC, neFD, neFE]

lemma rawDefense_mEF (xi : ℝ) : rawDefense xi 0 [mEF] 1 [] = [("E", 0), ("F", 2)] := by
  norm_num [rawDefense, teams_mEF, stats_mEF, upsert, neAB, neAC, neAD, neAE, neAF, neBA, neBC, neBD, neBE, neBF, neCA, neCB, neCD, neCE, neCF, neDA, neDB, neDC, neDE, neDF, neEA, neEB, neEC, neED, neEF, neFA, neFB, neFC, neFD, neFE]

lemma fit_mEF : fitState defaultState [mEF] none = some sEF := by
  have hmd : maxDate [mEF] = 0 := by decide
  simp only [fitState, defaultState, initState, Option.getD, hmd, league_mEF,
    rawAttack_mEF, rawDefense_mEF, teams_mEF]
  norm_num [upsert, sEF, addTeam, ite_cons_nil, neAB, neAC, neAD, neAE, neAF, neBA, neBC, neBD, neBE, neBF, neCA, neCB, neCD, neCE, neCF, neDA, neDB, neDC, neDE, neDF, neEA, neEB, neEC, neED, neEF, neFA, neFB, neFC, neFD, neFE]

/-- The state produced by fitting the fresh default model on `[mAB]`. -/
def sAB : DCState :=
  ⟨0.0065, 0.3, -0.13, [("A", 2), ("B", 0)], [("A", 0), ("B", 2)], ["A", "B"]⟩

lemma teams_mABonly : teamsOf [mAB] = ["A", "B"] := by decide

lemma stats_mAB (xi : ℝ) :
    weightedMatches xi 0 [mAB] "A" = 1 ∧ weightedMatches xi 0 [mAB] "B" = 1 ∧
    goalsScoredW xi 0 [mAB] "A" = 2 ∧ goalsScoredW xi 0 [mAB] "B" = 0 ∧
    goalsConcededW xi 0 [mAB] "A" = 0 ∧ goalsConcededW xi 0 [mAB] "B" = 2 := by
  norm_num [weightedMatches, goalsScoredW, goalsConcededW, mAB, weight_same_date, neAB, neAC, neAD, neAE, neAF, neBA, neBC, neBD, neBE, neBF, neCA, neCB, neCD, neCE, neCF, neDA, neDB, neDC, neDE, neDF, neEA, neEB, neEC, neED, neEF, neFA, neFB, neFC, neFD, neFE]

lemma league_mAB (xi : ℝ) : leagueAvgOf xi 0 [mAB] = 1 := by
  norm_num [leagueAvgOf, teams_mABonly, stats_mAB]

lemma rawAttack_mAB (xi : ℝ) : rawAttack xi 0 [mAB] 1 [] = [("A", 2), ("B", 0)] := by
  norm_num [rawAttack, teams_mABonly, stats_mAB, upsert, neAB, neAC, neAD, neAE, neAF, neBA, neBC, neBD, neBE, neBF, neCA, neCB, neCD, neCE, neCF, neDA, neDB, neDC, neDE, neDF, neEA, neEB, neEC, neED, neEF, neFA, neFB, neFC, neFD, neFE]

lemma rawDefense_mAB (xi : ℝ) : rawDefense xi 0 [mAB] 1 [] = [("A", 0), ("B", 2)] := by
  norm_num [rawDefense, teams_mABonly, stats_mAB, upsert, neAB, neAC, neAD, neAE, neAF, neBA, neBC, neBD, neBE, neBF, neCA, neCB, neCD, neCE, neCF, neDA, neDB, neDC, neDE, neDF, neEA, neEB, neEC, neED, neEF, neFA, neFB, neFC, neFD, neFE]

lemma fit_mAB : fitState defaultState [mAB] none = some sAB := by
  have hmd : maxDate [mAB] = 0 := by decide
  simp only [fitState, defaultState, initState, Option.getD, hmd, league_mAB,
    rawAttack_mAB, rawDefense_mAB, teams_mABonly]
  norm_num [upsert, sAB, addTeam, ite_cons_nil, neAB, neAC, neAD, neAE, neAF, neBA, neBC, neBD, neBE, neBF, neCA, neCB, neCD, neCE, neCF, neDA, neDB, neDC, neDE, neDF, neEA, neEB, neEC, neED, neEF, neFA, neFB, neFC, neFD, neFE]

lemma teams_mABC : teamsOf [mAB, mAC] = ["A", "B", "C"] := by decide

lemma stats_mABC (xi : ℝ) :
    weightedMatches xi 0 [mAB, mAC] "A" = 2 ∧ weightedMatches xi 0 [mAB, mAC] "B" = 1 ∧
    weightedMatches xi 0 [mAB, mAC] "C" = 1 ∧
    goalsScoredW xi 0 [mAB, mAC] "A" = 2 ∧ goalsScoredW xi 0 [mAB, mAC] "B" = 0 ∧
    goalsScoredW xi 0 [mAB, mAC] "C" = 1 ∧
    goalsConcededW xi 0 [mAB, mAC] "A" = 1 ∧ goalsConcededW xi 0 [mAB, mAC] "B" = 2 ∧
    goalsConcededW xi 0 [mAB, mAC] "C" = 0 := by
  norm_num [weightedMatches, goalsScoredW, goalsConcededW, mAB, mAC, weight_same_date,
    neAB, neAC, neAD, neAE, neAF, neBA, neBC, neBD, neBE, neBF, neCA, neCB, neCD, neCE, neCF, neDA, neDB, neDC, neDE, neDF, neEA, neEB, neEC, neED, neEF, neFA, neFB, neFC, neFD, neFE]

lemma league_mABC (xi : ℝ) : leagueAvgOf xi 0 [mAB, mAC] = 3 / 4 := by
  norm_num [leagueAvgOf, teams_mABC, stats_mABC]

lemma rawAttack_mABC (xi : ℝ) (prev : List (String × ℝ)) :
    rawAttack xi 0 [mAB, mAC] (3 / 4) prev =
      upsert "C" (4 / 3) (upsert "B" 0 (upsert "A" (4 / 3) prev)) := by
  norm_num [rawAttack, teams_mABC, stats_mABC]

lemma rawDefense_mABC (xi : ℝ) (prev : List (String × ℝ)) :
    rawDefense xi 0 [mAB, mAC] (3 / 4) prev =
      upsert "C" 0 (upsert "B" (8 / 3) (upsert "A" (2 / 3) prev)) := by
  norm_num [rawDefense, teams_mABC, stats_mABC]

/-- Fitting `[mAB, mAC]` on the model already fitted on `[mEF]`:
the stale `E`, `F` entries survive and skew the normalisation mean. -/
noncomputable def sSeq : DCState :=
  ⟨0.0065, 0.3, -0.13,
    [("E", 15 / 7), ("F", 0), ("A", 10 / 7), ("B", 0), ("C", 10 / 7)],
    [("E", 0), ("F", 15 / 7), ("A", 5 / 7), ("B", 20 / 7), ("C", 0)],
    ["E", "F", "A", "B", "C"]⟩

/-- Fitting `[mAB, mAC]` on a fresh default model. -/
noncomputable def sFresh : DCState :=
  ⟨0.0065, 0.3, -0.13,
    [("A", 3 / 2), ("B", 0), ("C", 3 / 2)],
    [("A", 3 / 4), ("B", 3), ("C", 0)],
    ["A", "B", "C"]⟩

lemma fit_seq : fitState sEF [mAB, mAC] none = some sSeq := by
  have hmd : maxDate [mAB, mAC] = 0 := by decide
  simp only [fitState, sEF, Option.getD, hmd, league_mABC, rawAttack_mABC,
    rawDefense_mABC, teams_mABC]
  norm_num [upsert, sSeq, addTeam, ite_cons_nil, neAB, neAC, neAD, neAE, neAF, neBA, neBC, neBD, neBE, neBF, neCA, neCB, neCD, neCE, neCF, neDA, neDB, neDC, neDE, neDF, neEA, neEB, neEC, neED, neEF, neFA, neFB, neFC, neFD, neFE]
  intro h
  simp at h

lemma fit_fresh : fitState defaultState [mAB, mAC] none = some sFresh := by
  have hmd : maxDate [mAB, mAC] = 0 := by decide
  simp only [fitState, defaultState, initState, Option.getD, hmd, league_mABC,
    rawAttack_mABC, rawDefense_mABC, teams_mABC]
  norm_num [upsert, sFresh, addTeam, ite_cons_nil, neAB, neAC, neAD, neAE, neAF, neBA, neBC, neBD, neBE, neBF, neCA, neCB, neCD, neCE, neCF, neDA, neDB, neDC, neDE, neDF, neEA, neEB, neEC, neED, neEF, neFA, neFB, neFC, neFD, neFE]
  intro h
  simp at h

/-- Fitting the lopsided pair `[mBig, mCD]` on a fresh default model:
team A ends with a very large attack and B with a very large defense. -/
noncomputable def sC1 : DCState :=
  ⟨0.0065, 0.3, -0.13,
    [("A", 80 / 23), ("B", 4 / 23), ("C", 4 / 23), ("D", 4 / 23)],
    [("A", 4 / 23), ("B", 80 / 23), ("C", 4 / 23), ("D", 4 / 23)],
    ["A", "B", "C", "D"]⟩

lemma teams_mBigCD : teamsOf [mBig, mCD] = ["A", "B", "C", "D"] := by decide

lemma stats_mBigCD (xi : ℝ) :
    weightedMatches xi 0 [mBig, mCD] "A" = 1 ∧ weightedMatches xi 0 [mBig, mCD] "B" = 1 ∧
    weightedMatches xi 0 [mBig, mCD] "C" = 1 ∧ weightedMatches xi 0 [mBig, mCD] "D" = 1 ∧
    goalsScoredW xi 0 [mBig, mCD] "A" = 20 ∧ goalsScoredW xi 0 [mBig, mCD] "B" = 1 ∧
    goalsScoredW xi 0 [mBig, mCD] "C" = 1 ∧ goalsScoredW xi 0 [mBig, mCD] "D" = 1 ∧
    goalsConcededW xi 0 [mBig, mCD] "A" = 1 ∧ goalsConcededW xi 0 [mBig, mCD] "B" = 20 ∧
    goalsConcededW xi 0 [mBig, mCD] "C" = 1 ∧ goalsConcededW xi 0 [mBig, mCD] "D" = 1 := by
  norm_num [weightedMatches, goalsScoredW, goalsConcededW, mBig, mCD, weight_same_date,
    neAB, neAC, neAD, neAE, neAF, neBA, neBC, neBD, neBE, neBF, neCA, neCB, neCD, neCE, neCF, neDA, neDB, neDC, neDE, neDF, neEA, neEB, neEC, neED, neEF, neFA, neFB, neFC, neFD, neFE]

lemma league_mBigCD (xi : ℝ) : leagueAvgOf xi 0 [mBig, mCD] = 23 / 4 := by
  norm_num [leagueAvgOf, teams_mBigCD, stats_mBigCD]

lemma rawAttack_mBigCD (xi : ℝ) :
    rawAttack xi 0 [mBig, mCD] (23 / 4) [] =
      [("A", 80 / 23), ("B", 4 / 23), ("C", 4 / 23), ("D", 4 / 23)] := by
  norm_num [rawAttack, teams_mBigCD, stats_mBigCD, upsert, neAB, neAC, neAD, neAE, neAF, neBA, neBC, neBD, neBE, neBF, neCA, neCB, neCD, neCE, neCF, neDA, neDB, neDC, neDE, neDF, neEA, neEB, neEC, neED, neEF, neFA, neFB, neFC, neFD, neFE]

lemma rawDefense_mBigCD (xi : ℝ) :
    rawDefense xi 0 [mBig, mCD] (23 / 4) [] =
      [("A", 4 / 23), ("B", 80 / 23), ("C", 4 / 23), ("D", 4 / 23)] := by
  norm_num [rawDefense, teams_mBigCD, stats_mBigCD, upsert, neAB, neAC, neAD, neAE, neAF, neBA, neBC, neBD, neBE, neBF, neCA, neCB, neCD, neCE, neCF, neDA, neDB, neDC, neDE, neDF, neEA, neEB, neEC, neED, neEF, neFA, neFB, neFC, neFD, neFE]

lemma fit_mBigCD : fitState defaultState [mBig, mCD] none = some sC1 := by
  have hmd : maxDate [mBig, mCD] = 0 := by decide
  simp only [fitState, defaultState, initState, Option.getD, hmd, league_mBigCD,
    rawAttack_mBigCD, rawDefense_mBigCD, teams_mBigCD]
  norm_num [upsert, sC1, addTeam, ite_cons_nil, neAB, neAC, neAD, neAE, neAF, neBA, neBC, neBD, neBE, neBF, neCA, neCB, neCD, neCE, neCF, neDA, neDB, neDC, neDE, neDF, neEA, neEB, neEC, neED, neEF, neFA, neFB, neFC, neFD, neFE]
  intro h
  simp at h

end ConcreteFits

section LookupLemmas

lemma lookup_upsert (k t : String) (v : ℝ) (l : List (String × ℝ)) :
    (upsert k v l).lookup t = if t = k then some v else l.lookup t := by
  induction l with
  | nil =>
    by_cases h : t = k
    · simp [upsert, List.lookup, h]
    · simp [upsert, List.lookup, h, beq_eq_false_iff_ne.mpr h]
  | cons p rest ih =>
    obtain ⟨pk, pv⟩ := p
    by_cases hp : pk = k
    · subst hp
      by_cases h : t = pk
      · simp [upsert, List.lookup, h]
      · simp [upsert, List.lookup, h, beq_eq_false_iff_ne.mpr h]
    · by_cases h : t = pk
      · subst h
        simp [upsert, List.lookup, hp]
      · simp [upsert, List.lookup, hp, h, ih, beq_eq_false_iff_ne.mpr h]

lemma lookup_map_scale (l : List (String × ℝ)) (c : ℝ) (t : String) :
    (l.map (fun p => (p.1, p.2 / c))).lookup t = (l.lookup t).map (fun v => v / c) := by
  induction l with
  | nil => simp
  | cons p rest ih =>
    by_cases h : t = p.1
    · simp [List.lookup, h, ih]
    · simp [List.lookup, h, ih, beq_eq_false_iff_ne.mpr h]

lemma foldl_isSome_mono (f : List (String × ℝ) → String → List (String × ℝ))
    (hf : ∀ acc u t, (List.lookup t acc).isSome → (List.lookup t (f acc u)).isSome) :
    ∀ (ts : List String) (prev : List (String × ℝ)) (t : String),
      (prev.lookup t).isSome → ((ts.foldl f prev).lookup t).isSome := by
  intro ts
  induction ts with
  | nil => exact fun prev t h => h
  | cons u ts ih => exact fun prev t h => ih (f prev u) t (hf prev u t h)

lemma foldl_isSome_of_mem (f : List (String × ℝ) → String → List (String × ℝ))
    (hf : ∀ acc u t, (List.lookup t acc).isSome → (List.lookup t (f acc u)).isSome)
    (t : String) (ht : ∀ acc, ((f acc t).lookup t).isSome) :
    ∀ (ts : List String) (prev : List (String × ℝ)), t ∈ ts →
      ((ts.foldl f prev).lookup t).isSome := by
  intro ts
  induction ts with
  | nil => intro prev h; cases h
  | cons u ts ih =>
    intro prev hmem
    rcases List.mem_cons.mp hmem with rfl | hmem2
    · exact foldl_isSome_mono f hf ts (f prev t) t (ht prev)
    · exact ih (f prev u) hmem2

lemma rawAttack_step_mono (xi : ℝ) (cur : ℤ) (ms : List MatchRec) (lg : ℝ) :
    ∀ acc u t, (List.lookup t acc).isSome →
      (List.lookup t (if 0 < weightedMatches xi cur ms u then
        upsert u (goalsScoredW xi cur ms u / weightedMatches xi cur ms u / lg) acc
      else acc)).isSome := by
  intro acc u t h
  split
  · rw [lookup_upsert]
    split
    · simp
    · exact h
  · exact h

lemma rawDefense_step_mono (xi : ℝ) (cur : ℤ) (ms : List MatchRec) (lg : ℝ) :
    ∀ acc u t, (List.lookup t acc).isSome →
      (List.lookup t (if 0 < weightedMatches xi cur ms u then
        upsert u (goalsConcededW xi cur ms u / weightedMatches xi cur ms u / lg) acc
      else acc)).isSome := by
  intro acc u t h
  split
  · rw [lookup_upsert]
    split
    · simp
    · exact h
  · exact h

lemma rawAttack_preserves (xi : ℝ) (cur : ℤ) (ms : List MatchRec) (lg : ℝ)
    (prev : List (String × ℝ)) (t : String) (h : (prev.lookup t).isSome) :
    ((rawAttack xi cur ms lg prev).lookup t).isSome :=
  foldl_isSome_mono _ (rawAttack_step_mono xi cur ms lg) (teamsOf ms) prev t h

lemma rawDefense_preserves (xi : ℝ) (cur : ℤ) (ms : List MatchRec) (lg : ℝ)
    (prev : List (String × ℝ)) (t : String) (h : (prev.lookup t).isSome) :
    ((rawDefense xi cur ms lg prev).lookup t).isSome :=
  foldl_isSome_mono _ (rawDefense_step_mono xi cur ms lg) (teamsOf ms) prev t h

lemma rawAttack_rates (xi : ℝ) (cur : ℤ) (ms : List MatchRec) (lg : ℝ)
    (prev : List (String × ℝ)) (t : String) (ht : t ∈ teamsOf ms)
    (hw : 0 < weightedMatches xi cur ms t) :
    ((rawAttack xi cur ms lg prev).lookup t).isSome := by
  refine foldl_isSome_of_mem _ (rawAttack_step_mono xi cur ms lg) t ?_ (teamsOf ms) prev ht
  intro acc
  rw [if_pos hw, lookup_upsert, if_pos rfl]
  simp

lemma rawDefense_rates (xi : ℝ) (cur : ℤ) (ms : List MatchRec) (lg : ℝ)
    (prev : List (String × ℝ)) (t : String) (ht : t ∈ teamsOf ms)
    (hw : 0 < weightedMatches xi cur ms t) :
    ((rawDefense xi cur ms lg prev).lookup t).isSome := by
  refine foldl_isSome_of_mem _ (rawDefense_step_mono xi cur ms lg) t ?_ (teamsOf ms) prev ht
  intro acc
  rw [if_pos hw, lookup_upsert, if_pos rfl]
  simp

end LookupLemmas

/-- **C5 (corrected), counterexample.**  `fit` is not a pure function of
its input: fitting `[mEF]` and then `[mAB, mAC]` on the same instance
leaves team E rated (at a renormalized value), and team A ends at
`10/7` instead of the `3/2` a fresh fit on `[mAB, mAC]` produces,
because the stale `E`/`F` entries enter the normalisation mean. -/
theorem fit_not_pure_counterexample :
    fitState defaultState [mEF] none = some sEF ∧
    fitState sEF [mAB, mAC] none = some sSeq ∧
    fitState defaultState [mAB, mAC] none = some sFresh ∧
    sSeq.teamAttack ≠ sFresh.teamAttack ∧
    sSeq.teamAttack.lookup "E" = some (15 / 7) ∧
    sFresh.teamAttack.lookup "E" = none ∧
    sSeq.teamAttack.lookup "A" = some (10 / 7) ∧
    sFresh.teamAttack.lookup "A" = some (3 / 2) := by
  refine ⟨fit_mEF, fit_seq, fit_fresh, ?_, ?_, ?_, ?_, ?_⟩ <;>
    norm_num [sSeq, sFresh, List.lookup, beqAB, beqAC, beqAD, beqAE, beqAF, beqBA, beqBC, beqBD, beqBE, beqBF, beqCA, beqCB, beqCD, beqCE, beqCF, beqDA, beqDB, beqDC, beqDE, beqDF, beqEA, beqEB, beqEC, beqED, beqEF, beqFA, beqFB, beqFC, beqFD, beqFE,
      neAE, neEA, neAB, neBA, neAF, neFA, neEF, neFE]

/-- **C5 (amended).**  `fit` accumulates rather than replaces: every team
rated before a further successful `fit` is still rated afterwards (its
entry is overwritten or merely renormalized, never dropped), which is
why refitting on `m2` after `m1` need not agree with a fresh fit on `m2`
(see `fit_not_pure_counterexample`). -/
theorem fit_retains_previous_ratings (s : DCState) (ms : List MatchRec)
    (curOpt : Option ℤ) (s2 : DCState) (hfit : fitState s ms curOpt = some s2)
    (t : String) :
    ((s.teamAttack.lookup t).isSome → (s2.teamAttack.lookup t).isSome) ∧
    ((s.teamDefense.lookup t).isSome → (s2.teamDefense.lookup t).isSome) := by
  simp only [fitState] at hfit
  split_ifs at hfit
  all_goals
    first
      | exact Option.noConfusion hfit
      | (rw [Option.some_inj] at hfit
         subst hfit
         refine ⟨fun h => ?_, fun h => ?_⟩ <;>
           simp only [lookup_map_scale, Option.isSome_map'] <;>
           first
             | exact rawAttack_preserves _ _ _ _ _ _ h
             | exact rawDefense_preserves _ _ _ _ _ _ h)

/-- Witness for `fit_retains_previous_ratings`: team E, rated by the
first fit, is still rated after the second. -/
theorem fit_retains_previous_ratings_witness :
    (sSeq.teamAttack.lookup "E").isSome = true :=
  (fit_retains_previous_ratings sEF [mAB, mAC] none sSeq fit_seq "E").1
    (by simp [sEF, List.lookup])

/-- Inversion of a successful `fit`: the new rating lists are the raw
loops' outputs, every entry divided by a non-zero `avg_attack`, which
equals the mean of the raw attack values whenever any team was rated. -/
lemma fitState_inversion (s : DCState) (ms : List MatchRec) (curOpt : Option ℤ)
    (s2 : DCState) (hfit : fitState s ms curOpt = some s2) :
    ∃ avg : ℝ, avg ≠ 0 ∧
      s2.teamAttack = (rawAttack s.xi (curOpt.getD (maxDate ms)) ms
        (leagueAvgOf s.xi (curOpt.getD (maxDate ms)) ms) s.teamAttack).map
          (fun p => (p.1, p.2 / avg)) ∧
      s2.teamDefense = (rawDefense s.xi (curOpt.getD (maxDate ms)) ms
        (leagueAvgOf s.xi (curOpt.getD (maxDate ms)) ms) s.teamDefense).map
          (fun p => (p.1, p.2 / avg)) ∧
      (rawAttack s.xi (curOpt.getD (maxDate ms)) ms
        (leagueAvgOf s.xi (curOpt.getD (maxDate ms)) ms) s.teamAttack ≠ [] →
        avg = (List.map Prod.snd (rawAttack s.xi (curOpt.getD (maxDate ms)) ms
          (leagueAvgOf s.xi (curOpt.getD (maxDate ms)) ms) s.teamAttack)).sum /
          (rawAttack s.xi (curOpt.getD (maxDate ms)) ms
            (leagueAvgOf s.xi (curOpt.getD (maxDate ms)) ms) s.teamAttack).length) := by
  simp only [fitState] at hfit
  split_ifs at hfit
  all_goals
    first
      | exact Option.noConfusion hfit
      | (rw [Option.some_inj] at hfit
         subst hfit
         first
           | exact ⟨1, one_ne_zero, rfl, rfl, fun hne => absurd (by assumption) hne⟩
           | exact ⟨_, by assumption, rfl, rfl, fun _ => rfl⟩)

lemma list_map_div_sum (l : List ℝ) (c : ℝ) :
    (l.map (fun x => x / c)).sum = l.sum / c := by
  induction l with
  | nil => simp
  | cons x rest ih => simp [ih, add_div]

/-- **C7.**  After every successful `fit` on a fresh model that rated at
least one team, the mean of the stored attack values is exactly `1`:
the normalisation loop divides every attack and defense entry by the
mean of the raw attack values demanded by the spec.  (The proof uses
only the structure of the final normalisation, so it holds for refits
as well; the fresh model of the claim is the special case.) -/
theorem fit_normalizes_mean_attack (xi ha rho : ℝ) (ms : List MatchRec)
    (curOpt : Option ℤ) (s2 : DCState)
    (hfit : fitState (initState xi ha rho) ms curOpt = some s2)
    (hne : s2.teamAttack ≠ []) :
    (s2.teamAttack.map Prod.snd).sum / (s2.teamAttack.length : ℝ) = 1 := by
  obtain ⟨avg, havg, hatk, _, himp⟩ := fitState_inversion _ ms curOpt s2 hfit
  rw [hatk] at hne ⊢
  have hA : rawAttack (initState xi ha rho).xi (curOpt.getD (maxDate ms)) ms
      (leagueAvgOf (initState xi ha rho).xi (curOpt.getD (maxDate ms)) ms)
      (initState xi ha rho).teamAttack ≠ [] := by
    intro h0
    exact hne (by simp [h0])
  set atkNew := rawAttack (initState xi ha rho).xi (curOpt.getD (maxDate ms)) ms
    (leagueAvgOf (initState xi ha rho).xi (curOpt.getD (maxDate ms)) ms)
    (initState xi ha rho).teamAttack with hdef
  have havg2 : avg = (atkNew.map Prod.snd).sum / (atkNew.length : ℝ) := himp hA
  have hmaps : (atkNew.map (fun p => (p.1, p.2 / avg))).map Prod.snd =
      (atkNew.map Prod.snd).map (fun x => x / avg) := by
    simp [List.map_map]
  have hlen0 : 0 < atkNew.length := List.length_pos.mpr hA
  have hlen : (atkNew.length : ℝ) ≠ 0 := Nat.cast_ne_zero.mpr hlen0.ne'
  have hS : (atkNew.map Prod.snd).sum ≠ 0 := by
    intro h0
    rw [havg2, h0, zero_div] at havg
    exact havg rfl
  rw [hmaps, list_map_div_sum, List.length_map, havg2]
  field_simp

/-- Witness for `fit_normalizes_mean_attack`: the fit on `[mEF]` gives
attack values `2` and `0`, whose mean is `1`. -/
theorem fit_normalizes_mean_attack_witness :
    (sEF.teamAttack.map Prod.snd).sum / (sEF.teamAttack.length : ℝ) = 1 :=
  fit_normalizes_mean_attack 0.0065 0.3 (-0.13) [mEF] none sEF fit_mEF
    (by simp [sEF])

section AppearanceLemmas

lemma timeDecayWeight_pos (xi : ℝ) (d cur : ℤ) : 0 < timeDecayWeight xi d cur :=
  Real.exp_pos _

lemma wm_term_nonneg (xi : ℝ) (cur : ℤ) (m : MatchRec) (t : String) :
    0 ≤ (if m.homeTeam = t then timeDecayWeight xi m.matchDate cur else 0) +
        (if m.awayTeam = t then timeDecayWeight xi m.matchDate cur else 0) := by
  have hw := timeDecayWeight_pos xi m.matchDate cur
  split_ifs <;> linarith

lemma weightedMatches_pos (xi : ℝ) (cur : ℤ) (ms : List MatchRec) (t : String)
    (happ : ∃ m ∈ ms, m.homeTeam = t ∨ m.awayTeam = t) :
    0 < weightedMatches xi cur ms t := by
  induction ms with
  | nil =>
    obtain ⟨m, hm, _⟩ := happ
    cases hm
  | cons m rest ih =>
    have hrest0 : 0 ≤ weightedMatches xi cur rest t := by
      refine List.sum_nonneg ?_
      intro x hx
      obtain ⟨m2, _, rfl⟩ := List.mem_map.mp hx
      exact wm_term_nonneg xi cur m2 t
    simp only [weightedMatches, List.map_cons, List.sum_cons]
    obtain ⟨m2, hm2, hside⟩ := happ
    rcases List.mem_cons.mp hm2 with rfl | h2
    · have hterm : 0 < (if m2.homeTeam = t then timeDecayWeight xi m2.matchDate cur else 0) +
          (if m2.awayTeam = t then timeDecayWeight xi m2.matchDate cur else 0) := by
        have hw := timeDecayWeight_pos xi m2.matchDate cur
        rcases hside with h | h
        · rw [if_pos h]
          split_ifs <;> linarith
        · rw [if_pos h]
          split_ifs <;> linarith
      simp only [weightedMatches] at hrest0
      linarith
    · have hrest := ih ⟨m2, h2, hside⟩
      simp only [weightedMatches] at hrest
      linarith [wm_term_nonneg xi cur m t]

lemma mem_addTeam_self (acc : List String) (t : String) : t ∈ addTeam acc t := by
  unfold addTeam
  split
  · assumption
  · simp

lemma mem_addTeam_mono (acc : List String) (t u : String) (h : u ∈ acc) :
    u ∈ addTeam acc t := by
  unfold addTeam
  split
  · exact h
  · simp [h]

lemma mem_foldl_addTeam :
    ∀ (ms : List MatchRec) (acc : List String) (t : String),
      (t ∈ acc ∨ ∃ m ∈ ms, m.homeTeam = t ∨ m.awayTeam = t) →
      t ∈ ms.foldl (fun acc m => addTeam (addTeam acc m.homeTeam) m.awayTeam) acc := by
  intro ms
  induction ms with
  | nil =>
    rintro acc t (h | ⟨m, hm, _⟩)
    · exact h
    · cases hm
  | cons m rest ih =>
    rintro acc t (h | ⟨m2, hm2, hside⟩)
    · exact ih _ t (Or.inl (mem_addTeam_mono _ _ _ (mem_addTeam_mono _ _ _ h)))
    · rcases List.mem_cons.mp hm2 with rfl | h2
      · rcases hside with h | h
        · subst h
          exact ih _ _ (Or.inl (mem_addTeam_mono _ _ _ (mem_addTeam_self acc _)))
        · subst h
          exact ih _ _ (Or.inl (mem_addTeam_self _ _))
      · exact ih _ t (Or.inr ⟨m2, h2, hside⟩)

lemma mem_teamsOf (ms : List MatchRec) (t : String)
    (happ : ∃ m ∈ ms, m.homeTeam = t ∨ m.awayTeam = t) : t ∈ teamsOf ms :=
  mem_foldl_addTeam ms [] t (Or.inr happ)

end AppearanceLemmas

/-- **C10.**  Every team appearing in a non-empty match list has strictly
positive weighted matches (the decay weight `exp(-xi*days)` is positive
for every match, whatever `xi` and the dates), so the guard excluding
teams with zero weighted matches never fires: after any successful
`fit`, every appearing team carries both an attack and a defense
rating — the `omitted (not rated)` case is unreachable. -/
theorem fit_rates_every_appearing_team (xi : ℝ) (cur : ℤ) (ms : List MatchRec)
    (t : String) (happ : ∃ m ∈ ms, m.homeTeam = t ∨ m.awayTeam = t) :
    0 < weightedMatches xi cur ms t ∧ t ∈ teamsOf ms ∧
    ∀ (s : DCState) (curOpt : Option ℤ) (s2 : DCState),
      fitState s ms curOpt = some s2 →
      (s2.teamAttack.lookup t).isSome ∧ (s2.teamDefense.lookup t).isSome := by
  refine ⟨weightedMatches_pos xi cur ms t happ, mem_teamsOf ms t happ, ?_⟩
  intro s curOpt s2 hfit
  obtain ⟨avg, _, hatk, hdfn, _⟩ := fitState_inversion s ms curOpt s2 hfit
  rw [hatk, hdfn]
  constructor <;> simp only [lookup_map_scale, Option.isSome_map']
  · exact rawAttack_rates _ _ _ _ _ t (mem_teamsOf ms t happ)
      (weightedMatches_pos _ _ _ _ happ)
  · exact rawDefense_rates _ _ _ _ _ t (mem_teamsOf ms t happ)
      (weightedMatches_pos _ _ _ _ happ)

/-- Witness for `fit_rates_every_appearing_team`: team E of the single
match `[mEF]` is rated by the fit. -/
theorem fit_rates_every_appearing_team_witness :
    0 < weightedMatches 0.0065 0 [mEF] "E" ∧ "E" ∈ teamsOf [mEF] ∧
    ((sEF.teamAttack.lookup "E").isSome ∧ (sEF.teamDefense.lookup "E").isSome) := by
  have T := fit_rates_every_appearing_team 0.0065 0 [mEF] "E"
    ⟨mEF, by simp, Or.inl rfl⟩
  exact ⟨T.1, T.2.1, T.2.2 defaultState none sEF fit_mEF⟩

section FiftyMatches

/-- Demo match used 50 times over: A beats B 1-0. -/
def m50 : MatchRec := ⟨"f6", "A", "B", 1, 0, 0⟩

/-- The state produced by fitting the fresh default model on 50 copies
of `m50`. -/
def s50 : DCState :=
  ⟨0.0065, 0.3, -0.13, [("A", 2), ("B", 0)], [("A", 0), ("B", 2)], ["A", "B"]⟩

set_option maxRecDepth 4000 in
lemma teams_rep50 : teamsOf (List.replicate 50 m50) = ["A", "B"] := by decide

set_option maxRecDepth 4000 in
lemma maxDate_rep50 : maxDate (List.replicate 50 m50) = 0 := by decide

lemma stats_rep50 (xi : ℝ) :
    weightedMatches xi 0 (List.replicate 50 m50) "A" = 50 ∧
    weightedMatches xi 0 (List.replicate 50 m50) "B" = 50 ∧
    goalsScoredW xi 0 (List.replicate 50 m50) "A" = 50 ∧
    goalsScoredW xi 0 (List.replicate 50 m50) "B" = 0 ∧
    goalsConcededW xi 0 (List.replicate 50 m50) "A" = 0 ∧
    goalsConcededW xi 0 (List.replicate 50 m50) "B" = 50 := by
  norm_num [weightedMatches, goalsScoredW, goalsConcededW, m50, weight_same_date,
    List.map_replicate, List.sum_replicate, nsmul_eq_mul, neAB, neBA]

lemma league_rep50 (xi : ℝ) : leagueAvgOf xi 0 (List.replicate 50 m50) = 1 / 2 := by
  norm_num [leagueAvgOf, teams_rep50, stats_rep50]

lemma rawAttack_rep50 (xi : ℝ) :
    rawAttack xi 0 (List.replicate 50 m50) (1 / 2) [] = [("A", 2), ("B", 0)] := by
  norm_num [rawAttack, teams_rep50, stats_rep50, upsert, neAB, neBA]

lemma rawDefense_rep50 (xi : ℝ) :
    rawDefense xi 0 (List.replicate 50 m50) (1 / 2) [] = [("A", 0), ("B", 2)] := by
  norm_num [rawDefense, teams_rep50, stats_rep50, upsert, neAB, neBA]

lemma fit_rep50 : fitState defaultState (List.replicate 50 m50) none = some s50 := by
  simp only [fitState, defaultState, initState, Option.getD, maxDate_rep50,
    league_rep50, rawAttack_rep50, rawDefense_rep50, teams_rep50]
  norm_num [upsert, s50, addTeam, ite_cons_nil, neAB, neBA]

end FiftyMatches

/-- **C2 (corrected), counterexample.**  Fitting 50 matches on a fresh
default model returns normally with a fully populated rating snapshot:
`fit` raises no error on a history below the policy minimum (and the
repository defines no `DataInsufficientError` anywhere). -/
theorem fit_fifty_matches_counterexample :
    (List.replicate 50 m50).length = 50 ∧
    fitState defaultState (List.replicate 50 m50) none = some s50 :=
  ⟨by simp, fit_rep50⟩

/-- **C2 (amended).**  The 100-match minimum is enforced by
`get_training_data`, which signals by returning `None` (the pipeline
then aborts); it is not a `fit`-raised exception. -/
theorem training_minimum_guard (ms : List MatchRec) (h : ms.length < 100) :
    getTrainingData ms = none := by
  simp [getTrainingData, h]

/-- Witness for `training_minimum_guard` at the 50-match history. -/
theorem training_minimum_guard_witness :
    getTrainingData (List.replicate 50 m50) = none :=
  training_minimum_guard _ (by simp)

section BucketPolynomials

/-- Coefficient of `lam^i / i!` in the home bucket, `exp` factors pulled
out: the tau-corrected mass of the away-goal column below row `i`. -/
noncomputable def homeCoef (mu rho : ℝ) : ℕ → ℝ
  | 0 => 0
  | 1 => 1 + mu * rho
  | 2 => 1 + mu
  | 3 => 1 + mu + mu ^ 2 / 2
  | 4 => 1 + mu + mu ^ 2 / 2 + mu ^ 3 / 6
  | 5 => 1 + mu + mu ^ 2 / 2 + mu ^ 3 / 6 + mu ^ 4 / 24
  | 6 => 1 + mu + mu ^ 2 / 2 + mu ^ 3 / 6 + mu ^ 4 / 24 + mu ^ 5 / 120
  | _ + 7 => 0

/-- Coefficient of `lam^i / i!` in the away bucket (the `(0,1)` tau cell
contributes the `mu * rho` summand at `i = 1`). -/
noncomputable def awayCoef (mu rho : ℝ) : ℕ → ℝ
  | 0 => mu + mu ^ 2 / 2 + mu ^ 3 / 6 + mu ^ 4 / 24 + mu ^ 5 / 120 + mu ^ 6 / 720
  | 1 => mu ^ 2 / 2 + mu ^ 3 / 6 + mu ^ 4 / 24 + mu ^ 5 / 120 + mu ^ 6 / 720 + mu * rho
  | 2 => mu ^ 3 / 6 + mu ^ 4 / 24 + mu ^ 5 / 120 + mu ^ 6 / 720
  | 3 => mu ^ 4 / 24 + mu ^ 5 / 120 + mu ^ 6 / 720
  | 4 => mu ^ 5 / 120 + mu ^ 6 / 720
  | 5 => mu ^ 6 / 720
  | _ + 6 => 0

lemma bucketH_poly (rho lam mu : ℝ) :
    bucketH rho lam mu = Real.exp (-lam) * Real.exp (-mu) *
      ∑ i ∈ Finset.range 7, lam ^ i / (Nat.factorial i : ℝ) * homeCoef mu rho i := by
  simp only [bucketH, scoreGridProb, poissonP, tauCorrection, homeCoef,
    Finset.sum_range_succ, Finset.sum_range_zero]
  norm_num [Nat.factorial]
  ring

lemma bucketA_poly (rho lam mu : ℝ) :
    bucketA rho lam mu = Real.exp (-lam) * Real.exp (-mu) *
      ∑ i ∈ Finset.range 7, lam ^ i / (Nat.factorial i : ℝ) * awayCoef mu rho i := by
  simp only [bucketA, scoreGridProb, poissonP, tauCorrection, awayCoef,
    Finset.sum_range_succ, Finset.sum_range_zero]
  norm_num [Nat.factorial]
  ring

end BucketPolynomials

/-- **C1 (corrected), counterexample.**  A genuinely fitted model (the
default model fitted on `[A 20-1 B, C 1-1 D]`) predicts A vs B with a
strictly negative `away_win_prob`: `lambda = 8320/529` makes the
`(0,1)` tau factor `1 + lambda*rho` so negative that the whole away
bucket drops below zero, and renormalization preserves its sign.  The
probabilities still sum to 1, but they are not all in `[0,1]`. -/
theorem predict_probability_out_of_range_counterexample :
    fitState defaultState [mBig, mCD] none = some sC1 ∧
    (predict sC1 "A" "B").awayWinProb < 0 := by
  refine ⟨fit_mBigCD, ?_⟩
  have hlam : lamOf sC1 "A" "B" = 8320 / 529 := by
    norm_num [lamOf, lookupD, sC1, List.lookup, beqBA, beqAB]
  have hmu : muOf sC1 "A" "B" = 16 / 529 := by
    norm_num [muOf, lookupD, sC1, List.lookup, beqBA, beqAB]
  have hrho : sC1.rho = -(13 / 100) := by norm_num [sC1]
  obtain ⟨htot, _, _, eA⟩ := predict_normalized sC1 "A" "B"
    (by rw [hlam]; norm_num) (by rw [hmu]; norm_num)
  rw [eA]
  refine div_neg_of_neg_of_pos ?_ htot
  rw [hlam, hmu, hrho, bucketA_poly]
  refine mul_neg_of_pos_of_neg (mul_pos (Real.exp_pos _) (Real.exp_pos _)) ?_
  simp only [Finset.sum_range_succ, Finset.sum_range_zero, awayCoef]
  norm_num [Nat.factorial]

section MonotoneMachinery

/-- Strict cross-product inequality: if the coefficients `h i` of a
truncated exponential-type polynomial are nondecreasing on `[0,6]` with
`h 0 < h 1`, the ratio against the plain truncated exponential strictly
increases between `x` and `y`; stated in cleared-denominator form. -/
lemma polyRatio_strict (h : ℕ → ℝ) (x y : ℝ) (hx : 0 < x) (hxy : x < y)
    (hmono : ∀ i k, i ≤ k → k < 7 → h i ≤ h k) (h01 : h 0 < h 1) :
    (∑ i ∈ Finset.range 7, x ^ i / (Nat.factorial i : ℝ) * h i) * truncExpSum y <
    (∑ i ∈ Finset.range 7, y ^ i / (Nat.factorial i : ℝ) * h i) * truncExpSum x := by
  have hy : 0 < y := lt_trans hx hxy
  set F : ℕ → ℕ → ℝ := fun i k =>
    h i * (y ^ i * x ^ k - x ^ i * y ^ k) / ((Nat.factorial i : ℝ) * (Nat.factorial k : ℝ))
    with hF
  have hfac : ∀ n : ℕ, ((Nat.factorial n : ℝ)) ≠ 0 :=
    fun n => Nat.cast_ne_zero.mpr (Nat.factorial_ne_zero n)
  have key : (∑ i ∈ Finset.range 7, y ^ i / (Nat.factorial i : ℝ) * h i) * truncExpSum x -
      (∑ i ∈ Finset.range 7, x ^ i / (Nat.factorial i : ℝ) * h i) * truncExpSum y =
      ∑ i ∈ Finset.range 7, ∑ k ∈ Finset.range 7, F i k := by
    unfold truncExpSum
    rw [Finset.sum_mul_sum, Finset.sum_mul_sum, ← Finset.sum_sub_distrib]
    refine Finset.sum_congr rfl fun i _ => ?_
    rw [← Finset.sum_sub_distrib]
    refine Finset.sum_congr rfl fun k _ => ?_
    simp only [hF]
    field_simp
    ring
  have hsum_eq : ∀ i k : ℕ, F i k + F k i =
      (h i - h k) * (y ^ i * x ^ k - x ^ i * y ^ k) /
        ((Nat.factorial i : ℝ) * (Nat.factorial k : ℝ)) := by
    intro i k
    simp only [hF]
    field_simp
    ring
  have hpow : ∀ i k : ℕ, i ≤ k → y ^ i * x ^ k ≤ x ^ i * y ^ k := by
    intro i k hik
    obtain ⟨e, rfl⟩ := Nat.exists_eq_add_of_le hik
    have hde : x ^ e ≤ y ^ e := pow_le_pow_left₀ hx.le hxy.le e
    have hxyi : (0 : ℝ) ≤ x ^ i * y ^ i := by positivity
    calc y ^ i * x ^ (i + e) = x ^ i * y ^ i * x ^ e := by ring
      _ ≤ x ^ i * y ^ i * y ^ e := by nlinarith
      _ = x ^ i * y ^ (i + e) := by ring
  have hG : ∀ i k : ℕ, i < 7 → k < 7 → 0 ≤ F i k + F k i := by
    intro i k hi hk
    rw [hsum_eq i k]
    rcases le_total i k with hik | hki
    · have h1 := hmono i k hik hk
      have h2 := hpow i k hik
      have hnum : 0 ≤ (h i - h k) * (y ^ i * x ^ k - x ^ i * y ^ k) := by nlinarith
      positivity
    · have h1 := hmono k i hki hi
      have h2 := hpow k i hki
      have hnum : 0 ≤ (h i - h k) * (y ^ i * x ^ k - x ^ i * y ^ k) := by nlinarith
      positivity
  have h01' : 0 < F 0 1 + F 1 0 := by
    rw [hsum_eq 0 1]
    have e1 : ((Nat.factorial 0 : ℝ)) = 1 := by norm_num [Nat.factorial]
    have e2 : ((Nat.factorial 1 : ℝ)) = 1 := by norm_num [Nat.factorial]
    rw [e1, e2]
    have : 0 < (h 1 - h 0) * (y - x) := by nlinarith
    nlinarith
  have hpos : 0 < ∑ i ∈ Finset.range 7, ∑ k ∈ Finset.range 7, (F i k + F k i) := by
    refine Finset.sum_pos'
      (fun i hi => Finset.sum_nonneg fun k hk =>
        hG i k (Finset.mem_range.mp hi) (Finset.mem_range.mp hk))
      ⟨0, Finset.mem_range.mpr (by norm_num), ?_⟩
    refine Finset.sum_pos'
      (fun k hk => hG 0 k (by norm_num) (Finset.mem_range.mp hk))
      ⟨1, Finset.mem_range.mpr (by norm_num), h01'⟩
  have hswap : ∑ i ∈ Finset.range 7, ∑ k ∈ Finset.range 7, F i k =
      ∑ i ∈ Finset.range 7, ∑ k ∈ Finset.range 7, F k i := Finset.sum_comm
  have hsym : (2 : ℝ) * (∑ i ∈ Finset.range 7, ∑ k ∈ Finset.range 7, F i k) =
      ∑ i ∈ Finset.range 7, ∑ k ∈ Finset.range 7, (F i k + F k i) := by
    rw [two_mul]
    nth_rewrite 2 [hswap]
    rw [← Finset.sum_add_distrib]
    refine Finset.sum_congr rfl fun i _ => ?_
    rw [← Finset.sum_add_distrib]
  have hS : 0 < ∑ i ∈ Finset.range 7, ∑ k ∈ Finset.range 7, F i k := by
    nlinarith [hsym ▸ hpos]
  linarith [key ▸ hS]

/-- Monotonicity on `[0,6]` from successive steps. -/
lemma mono_of_step (f : ℕ → ℝ) (hstep : ∀ n, n + 1 < 7 → f n ≤ f (n + 1)) :
    ∀ i k, i ≤ k → k < 7 → f i ≤ f k := by
  intro i k hik hk
  induction k with
  | zero =>
    have : i = 0 := Nat.le_zero.mp hik
    subst this
    exact le_refl _
  | succ n ih =>
    rcases Nat.lt_or_ge i (n + 1) with hlt | hge
    · exact le_trans (ih (Nat.lt_succ_iff.mp hlt) (Nat.lt_of_succ_lt hk)) (hstep n hk)
    · have : i = n + 1 := le_antisymm hik hge
      subst this
      exact le_refl _

lemma homeCoef_step (mu rho : ℝ) (hmu : 0 ≤ mu) (h1 : 0 ≤ 1 + mu * rho)
    (hrho : rho ≤ 1) :
    ∀ n, n + 1 < 7 → homeCoef mu rho n ≤ homeCoef mu rho (n + 1) := by
  have hmr : 0 ≤ mu * (1 - rho) := mul_nonneg hmu (by linarith)
  intro n hn
  have hn6 : n < 6 := by omega
  interval_cases n <;>
    simp [homeCoef] <;>
    nlinarith [pow_nonneg hmu 2, pow_nonneg hmu 3, pow_nonneg hmu 4, pow_nonneg hmu 5]

lemma awayCoef_step (mu rho : ℝ) (hmu : 0 ≤ mu) (hrho : rho ≤ 1)
    (hmr : 0 ≤ mu + 2 * rho) :
    ∀ n, n + 1 < 7 → awayCoef mu rho (n + 1) ≤ awayCoef mu rho n := by
  have hmr1 : 0 ≤ mu * (1 - rho) := mul_nonneg hmu (by linarith)
  have hmr2 : 0 ≤ mu * (mu + 2 * rho) := mul_nonneg hmu hmr
  intro n hn
  have hn6 : n < 6 := by omega
  interval_cases n <;>
    simp [awayCoef] <;>
    nlinarith [pow_nonneg hmu 2, pow_nonneg hmu 3, pow_nonneg hmu 4, pow_nonneg hmu 5,
      pow_nonneg hmu 6]

lemma homeCoef_01 (mu rho : ℝ) (htau : 0 < 1 + mu * rho) :
    homeCoef mu rho 0 < homeCoef mu rho 1 := by
  simp [homeCoef]
  linarith

lemma awayCoef_01 (mu rho : ℝ) (hmu : 0 < mu) (hrho : rho < 1) :
    awayCoef mu rho 1 < awayCoef mu rho 0 := by
  simp [awayCoef]
  nlinarith

lemma exp_pair_ne (lam mu : ℝ) : Real.exp (-lam) * Real.exp (-mu) ≠ 0 :=
  (mul_pos (Real.exp_pos _) (Real.exp_pos _)).ne'

/-- The normalized home-win probability, as a function of `lam` with
`mu`, `rho` fixed, strictly increases with `lam` under the tau
side-conditions. -/
lemma homeRatio_strict (mu rho lam1 lam2 : ℝ) (h1 : 0 < lam1) (h12 : lam1 < lam2)
    (hmu : 0 ≤ mu) (htau : 0 < 1 + mu * rho) (hrho : rho ≤ 1) :
    bucketH rho lam1 mu /
      (bucketH rho lam1 mu + bucketD rho lam1 mu + bucketA rho lam1 mu) <
    bucketH rho lam2 mu /
      (bucketH rho lam2 mu + bucketD rho lam2 mu + bucketA rho lam2 mu) := by
  have hS1 : 0 < truncExpSum lam1 := truncExpSum_pos h1.le
  have hS2 : 0 < truncExpSum lam2 := truncExpSum_pos (lt_trans h1 h12).le
  have hSmu : 0 < truncExpSum mu := truncExpSum_pos hmu
  rw [bucket_total_eq rho lam1 mu, bucket_total_eq rho lam2 mu,
    bucketH_poly rho lam1 mu, bucketH_poly rho lam2 mu,
    mul_div_mul_left _ _ (exp_pair_ne lam1 mu),
    mul_div_mul_left _ _ (exp_pair_ne lam2 mu),
    div_lt_div_iff (by positivity) (by positivity)]
  have key := polyRatio_strict (homeCoef mu rho) lam1 lam2 h1 h12
    (mono_of_step _ (homeCoef_step mu rho hmu htau.le hrho)) (homeCoef_01 mu rho htau)
  calc (∑ i ∈ Finset.range 7, lam1 ^ i / (Nat.factorial i : ℝ) * homeCoef mu rho i) *
        (truncExpSum lam2 * truncExpSum mu)
      = ((∑ i ∈ Finset.range 7, lam1 ^ i / (Nat.factorial i : ℝ) * homeCoef mu rho i) *
          truncExpSum lam2) * truncExpSum mu := by ring
    _ < ((∑ i ∈ Finset.range 7, lam2 ^ i / (Nat.factorial i : ℝ) * homeCoef mu rho i) *
          truncExpSum lam1) * truncExpSum mu := mul_lt_mul_of_pos_right key hSmu
    _ = (∑ i ∈ Finset.range 7, lam2 ^ i / (Nat.factorial i : ℝ) * homeCoef mu rho i) *
          (truncExpSum lam1 * truncExpSum mu) := by ring

/-- The normalized away-win probability strictly decreases with `lam`
under the tau side-conditions. -/
lemma awayRatio_strict (mu rho lam1 lam2 : ℝ) (h1 : 0 < lam1) (h12 : lam1 < lam2)
    (hmu : 0 < mu) (hrho : rho < 1) (hmr : 0 ≤ mu + 2 * rho) :
    bucketA rho lam2 mu /
      (bucketH rho lam2 mu + bucketD rho lam2 mu + bucketA rho lam2 mu) <
    bucketA rho lam1 mu /
      (bucketH rho lam1 mu + bucketD rho lam1 mu + bucketA rho lam1 mu) := by
  have hS1 : 0 < truncExpSum lam1 := truncExpSum_pos h1.le
  have hS2 : 0 < truncExpSum lam2 := truncExpSum_pos (lt_trans h1 h12).le
  have hSmu : 0 < truncExpSum mu := truncExpSum_pos hmu.le
  rw [bucket_total_eq rho lam1 mu, bucket_total_eq rho lam2 mu,
    bucketA_poly rho lam1 mu, bucketA_poly rho lam2 mu,
    mul_div_mul_left _ _ (exp_pair_ne lam1 mu),
    mul_div_mul_left _ _ (exp_pair_ne lam2 mu),
    div_lt_div_iff (by positivity) (by positivity)]
  have key := polyRatio_strict (fun i => awayCoef mu rho 0 - awayCoef mu rho i)
    lam1 lam2 h1 h12
    (fun i k hik hk => by
      have h2 := mono_of_step (fun n => - awayCoef mu rho n)
        (fun n hn => neg_le_neg (awayCoef_step mu rho hmu.le hrho.le hmr n hn)) i k hik hk
      simp only at h2
      show awayCoef mu rho 0 - awayCoef mu rho i ≤ awayCoef mu rho 0 - awayCoef mu rho k
      linarith)
    (by
      have h2 := awayCoef_01 mu rho hmu hrho
      show awayCoef mu rho 0 - awayCoef mu rho 0 < awayCoef mu rho 0 - awayCoef mu rho 1
      linarith)
  have expand : ∀ lam : ℝ,
      (∑ i ∈ Finset.range 7, lam ^ i / (Nat.factorial i : ℝ) *
        (awayCoef mu rho 0 - awayCoef mu rho i)) =
      awayCoef mu rho 0 * truncExpSum lam -
        ∑ i ∈ Finset.range 7, lam ^ i / (Nat.factorial i : ℝ) * awayCoef mu rho i := by
    intro lam
    unfold truncExpSum
    rw [Finset.mul_sum, ← Finset.sum_sub_distrib]
    refine Finset.sum_congr rfl fun i _ => ?_
    ring
  rw [expand lam1, expand lam2] at key
  nlinarith [key, mul_lt_mul_of_pos_right key hSmu]

end MonotoneMachinery

/-- **C8 (corrected), counterexample.**  After fitting `[mAB]` (A beats
B 2-0), team B has attack `0` and team A defense `0`, so predicting
B (home) vs A (away) gives `lambda = 0` for every home advantage: the
prediction is identical at `home_advantage = 0.3` and `0.6`, so the
probabilities are not strictly monotone in the home advantage. -/
theorem home_advantage_not_monotone_counterexample :
    fitState defaultState [mAB] none = some sAB ∧
    (0.3 : ℝ) < 0.6 ∧
    predict (setHA sAB 0.3) "B" "A" = predict (setHA sAB 0.6) "B" "A" ∧
    (predict (setHA sAB 0.3) "B" "A").homeWinProb =
      (predict (setHA sAB 0.6) "B" "A").homeWinProb ∧
    (predict (setHA sAB 0.3) "B" "A").awayWinProb =
      (predict (setHA sAB 0.6) "B" "A").awayWinProb := by
  have hl : ∀ ha : ℝ,
      lamOf ⟨sAB.xi, ha, sAB.rho, sAB.teamAttack, sAB.teamDefense, sAB.teams⟩ "B" "A" = 0 := by
    intro ha
    norm_num [lamOf, lookupD, sAB, List.lookup, beqBA, beqAB]
  have hm : ∀ ha : ℝ,
      muOf ⟨sAB.xi, ha, sAB.rho, sAB.teamAttack, sAB.teamDefense, sAB.teams⟩ "B" "A" =
        lookupD sAB.teamAttack "A" * lookupD sAB.teamDefense "B" := fun _ => rfl
  have hpred : predict (setHA sAB 0.3) "B" "A" = predict (setHA sAB 0.6) "B" "A" := by
    simp only [predict, setHA, hl, hm]
  exact ⟨fit_mAB, by norm_num, hpred, congrArg Prediction.homeWinProb hpred,
    congrArg Prediction.awayWinProb hpred⟩

/-- **C8 (amended).**  With the ratings held fixed, `home_win_prob` is
strictly increasing and `away_win_prob` strictly decreasing in
`home_advantage`, provided the rating products are strictly positive
(`lambda > 0` and `mu > 0`, ruling out the degenerate counterexample),
the advantages compared are non-negative, and `rho` satisfies the tau
side-conditions `rho < 1`, `1 + mu*rho > 0` and `mu + 2*rho >= 0`
(all true at the defaults for moderate ratings; for `1 + mu*rho < 0`
the original claim fails even with positive ratings). -/
theorem home_advantage_monotone (s : DCState) (home away : String) (ha1 ha2 : ℝ)
    (hprod : 0 < lookupD s.teamAttack home * lookupD s.teamDefense away)
    (hmu : 0 < lookupD s.teamAttack away * lookupD s.teamDefense home)
    (hha1 : 0 ≤ ha1) (hha12 : ha1 < ha2)
    (hrho : s.rho < 1)
    (htau : 0 < 1 + lookupD s.teamAttack away * lookupD s.teamDefense home * s.rho)
    (hmr : 0 ≤ lookupD s.teamAttack away * lookupD s.teamDefense home + 2 * s.rho) :
    (predict (setHA s ha1) home away).homeWinProb <
      (predict (setHA s ha2) home away).homeWinProb ∧
    (predict (setHA s ha2) home away).awayWinProb <
      (predict (setHA s ha1) home away).awayWinProb := by
  have hl1 : lamOf (setHA s ha1) home away =
      lookupD s.teamAttack home * (1 + ha1) * lookupD s.teamDefense away := rfl
  have hl2 : lamOf (setHA s ha2) home away =
      lookupD s.teamAttack home * (1 + ha2) * lookupD s.teamDefense away := rfl
  have hm1 : muOf (setHA s ha1) home away =
      lookupD s.teamAttack away * lookupD s.teamDefense home := rfl
  have hm2 : muOf (setHA s ha2) home away =
      lookupD s.teamAttack away * lookupD s.teamDefense home := rfl
  have hr1 : (setHA s ha1).rho = s.rho := rfl
  have hr2 : (setHA s ha2).rho = s.rho := rfl
  have hlam1 : 0 < lookupD s.teamAttack home * (1 + ha1) * lookupD s.teamDefense away := by
    have e : lookupD s.teamAttack home * (1 + ha1) * lookupD s.teamDefense away =
        lookupD s.teamAttack home * lookupD s.teamDefense away * (1 + ha1) := by ring
    rw [e]
    exact mul_pos hprod (by linarith)
  have hlam12 : lookupD s.teamAttack home * (1 + ha1) * lookupD s.teamDefense away <
      lookupD s.teamAttack home * (1 + ha2) * lookupD s.teamDefense away := by
    have e1 : lookupD s.teamAttack home * (1 + ha1) * lookupD s.teamDefense away =
        lookupD s.teamAttack home * lookupD s.teamDefense away * (1 + ha1) := by ring
    have e2 : lookupD s.teamAttack home * (1 + ha2) * lookupD s.teamDefense away =
        lookupD s.teamAttack home * lookupD s.teamDefense away * (1 + ha2) := by ring
    rw [e1, e2]
    exact mul_lt_mul_of_pos_left (by linarith) hprod
  obtain ⟨_, e1H, _, e1A⟩ := predict_normalized (setHA s ha1) home away
    (by rw [hl1]; exact hlam1.le) (by rw [hm1]; exact hmu.le)
  obtain ⟨_, e2H, _, e2A⟩ := predict_normalized (setHA s ha2) home away
    (by rw [hl2]; exact (lt_trans hlam1 hlam12).le) (by rw [hm2]; exact hmu.le)
  rw [e1H, e2H, e1A, e2A, hl1, hl2, hm1, hm2, hr1, hr2]
  exact ⟨homeRatio_strict _ s.rho _ _ hlam1 hlam12 hmu.le htau hrho.le,
    awayRatio_strict _ s.rho _ _ hlam1 hlam12 hmu hrho hmr⟩

/-- Witness for `home_advantage_monotone`: the default model with two
unrated teams (`mu = 1`, `rho = -0.13`) at advantages `0.3 < 0.6`. -/
theorem home_advantage_monotone_witness :
    (predict (setHA defaultState 0.3) "X" "Y").homeWinProb <
      (predict (setHA defaultState 0.6) "X" "Y").homeWinProb ∧
    (predict (setHA defaultState 0.6) "X" "Y").awayWinProb <
      (predict (setHA defaultState 0.3) "X" "Y").awayWinProb :=
  home_advantage_monotone defaultState "X" "Y" 0.3 0.6
    (by norm_num [lookupD, defaultState, initState])
    (by norm_num [lookupD, defaultState, initState])
    (by norm_num) (by norm_num)
    (by norm_num [defaultState, initState])
    (by norm_num [lookupD, defaultState, initState])
    (by norm_num [lookupD, defaultState, initState])

end DixonColes
